import Mathlib

/-!
Shallow embedding of the `Logger` class of this repository (source file
`src/unnamed/part_000`) together with its storage wrapper
(`src/localStorage/index.ts`).

Modelling choices:
* The external key-value store (MMKV) is opaque; the only key the logger
  writes is the fixed queue key `'logger_queue'`, so the state carries the
  content of that single slot (`none` = key absent).  The separate
  `'userID'` key is read once during init and only feeds an attribute call,
  so it is modelled as an input of `init`.
* `JSON.stringify` / `JSON.parse` are platform builtins external to the
  repository; they are modelled as an abstract faithful codec on the queue
  type: a well-formed persisted string carries the queue it encodes, and
  `corrupt` stands for any string on which `JSON.parse` throws.
* Calls into the remote sink (Crashlytics) are recorded as a trace of
  `Delivery` events; each call may throw, which is modelled by an explicit
  failure index for flushing and success flags for the init-time calls.
* `console.*` diagnostics have no effect on program state and are omitted.
* Timestamps (`Date.now()`) are inputs of the operations.
-/

namespace LoggingUtility

/-- Literal tags of the TS union `'log' | 'error' | 'warn'`. -/
inductive LogType
  | log
  | error
  | warn
deriving DecidableEq, Repr

/-- Mirrors `entry.type.toUpperCase()` on the three literal tags. -/
def LogType.toUpperCase : LogType → String
  | .log => "LOG"
  | .error => "ERROR"
  | .warn => "WARN"

/-- The `LogEntry` interface: `type`, `message`, `params`, `timestamp`,
and the optional `hash` field (absent = `none`). -/
structure LogEntry where
  type : LogType
  message : String
  params : String
  timestamp : Nat
  hash : Option String
deriving DecidableEq, Repr

/-- Content of the persistent store at the queue key.  `JSON.stringify` and
`JSON.parse` are platform builtins (external collaborators of this
repository), modelled as an abstract faithful codec: `wellFormed q` is the
serialization of the queue `q`, and `corrupt` stands for any stored string
on which deserialization throws. -/
inductive Stored
  | wellFormed (q : List LogEntry)
  | corrupt
deriving DecidableEq, Repr

/-- Abstract `JSON.stringify(this.logQueue)`. -/
def stringifyQueue (q : List LogEntry) : Stored := Stored.wellFormed q

/-- Abstract `JSON.parse(savedQueue) as LogEntry[]`; `none` means the parse
threw. -/
def parseQueue : Stored → Option (List LogEntry)
  | .wellFormed q => some q
  | .corrupt => none

namespace Logger

/-- Mutable state of the `Logger` singleton that the claims are about:
`logQueue`, `errorHashes`, and the persisted copy of the queue at the fixed
key `QUEUE_KEY = 'logger_queue'` (`store = none` means the key is absent,
as on a fresh install). -/
structure State where
  logQueue : List LogEntry
  errorHashes : Finset String
  store : Option Stored
deriving DecidableEq

/-- Fresh in-memory state of a newly constructed logger whose store slot
holds `st` (the fields are initialized to `[]` and the empty set). -/
def fresh (st : Option Stored) : State := ⟨[], ∅, st⟩

/-- Mirrors `generateErrorHash`: the template literal
`` `${message}:${params}` ``. -/
def generateErrorHash (message params : String) : String :=
  message ++ ":" ++ params

/-- Mirrors `saveQueue`: `storage.set(this.QUEUE_KEY, JSON.stringify(this.logQueue))`.
The store write is modelled as succeeding (its catch arm only logs). -/
def saveQueue (s : State) : State :=
  { s with store := some (stringifyQueue s.logQueue) }

/-- Mirrors `queueLog(type, message, params)` with `now = Date.now()`:
build the entry; for errors compute the hash, drop the call if the hash is
already present, otherwise attach the hash and remember it; push the entry
and persist the queue. -/
def queueLog (s : State) (type : LogType) (message params : String) (now : Nat) : State :=
  let entry : LogEntry := ⟨type, message, params, now, none⟩
  if type = LogType.error then
    let hash := generateErrorHash message params
    if hash ∈ s.errorHashes then
      s
    else
      saveQueue { s with
        logQueue := s.logQueue ++ [{ entry with hash := some hash }],
        errorHashes := insert hash s.errorHashes }
  else
    saveQueue { s with logQueue := s.logQueue ++ [entry] }

/-- The set of hashes that the `restoreQueue` loop collects from a parsed
queue: `entry.type === 'error' && entry.hash` — note `entry.hash` is a JS
truthiness test, so the hash must be present and a non-empty string. -/
def errHashesOf (q : List LogEntry) : Finset String :=
  (q.filterMap fun e =>
    match e.hash with
    | some h => if e.type = LogType.error ∧ h ≠ "" then some h else none
    | none => none).toFinset

/-- Mirrors `restoreQueue`, taking the result of
`storage.getString(this.QUEUE_KEY)` as input: `Except.error` means the read
threw, `Except.ok none` a falsy (absent) value.  On a successful parse the
queue is replaced and the hashes of restored error entries are added to the
dedupe set; any failure is caught and leaves the state untouched. -/
def restoreQueue (s : State) (read : Except Unit (Option Stored)) : State :=
  match read with
  | .error _ => s
  | .ok none => s
  | .ok (some sv) =>
    match parseQueue sv with
    | none => s
    | some parsedQueue =>
      { s with
        logQueue := parsedQueue,
        errorHashes := s.errorHashes ∪ errHashesOf parsedQueue }

/-- Calls into the remote sink (Crashlytics) during a flush. -/
inductive Delivery
  | logLine (line : String)
  | recordError (description : String)
deriving DecidableEq, Repr

/-- The log line delivered for a normal entry:
`` `[${entry.type.toUpperCase()}] ${entry.message} ${entry.params}` ``. -/
def formatLine (e : LogEntry) : String :=
  "[" ++ e.type.toUpperCase ++ "] " ++ e.message ++ " " ++ e.params

/-- The description of the synthetic `Error` passed to `recordError`:
`` `${entry.message} ${entry.params}` ``. -/
def errorDescription (e : LogEntry) : String :=
  e.message ++ " " ++ e.params

/-- Trace of the first flush loop: one `crashlytics().log` call per entry of
`normalLogs`, in order. -/
def deliverNormalLogs : List LogEntry → List Delivery
  | [] => []
  | e :: rest => Delivery.logLine (formatLine e) :: deliverNormalLogs rest

/-- Trace of the second flush loop: per entry of `errorLogs`, a
`crashlytics().log` call with the literal `[ERROR]` prefix immediately
followed by a `crashlytics().recordError` call. -/
def deliverErrorLogs : List LogEntry → List Delivery
  | [] => []
  | e :: rest =>
      Delivery.logLine ("[ERROR] " ++ e.message ++ " " ++ e.params)
        :: Delivery.recordError (errorDescription e)
        :: deliverErrorLogs rest

/-- The full sequence of sink calls a flush of queue `q` attempts: the two
filters of `flushLogs` followed by the two loops. -/
def flushPlan (q : List LogEntry) : List Delivery :=
  let errorLogs := q.filter fun e => e.type = LogType.error
  let normalLogs := q.filter fun e => ¬ e.type = LogType.error
  deliverNormalLogs normalLogs ++ deliverErrorLogs errorLogs

/-- Mirrors `flushLogs`, returning the new state and the trace of completed
sink calls.  `failIdx = some i` means the `i`-th awaited sink call (0-based,
in plan order) throws; the `catch` arm only logs, so the state is left
untouched.  If no call throws, the queue and the dedupe set are cleared and
the empty queue is persisted via `saveQueue`. -/
def flushLogs (s : State) (failIdx : Option Nat) : State × List Delivery :=
  if s.logQueue.length = 0 then
    (s, [])
  else
    let plan := flushPlan s.logQueue
    match failIdx with
    | some i =>
      if i < plan.length then
        (s, plan.take i)
      else
        (saveQueue { s with logQueue := [], errorHashes := ∅ }, plan)
    | none =>
      (saveQueue { s with logQueue := [], errorHashes := ∅ }, plan)

end Logger

/-- JS values that may be passed as variadic `optionalParams`, enough to
cover every branch `formatParams` distinguishes: primitives are converted
with `String(param)`, non-null values of typeof `'object'` are serialized
with `JSON.stringify`, and `circular` stands for an object on whose graph
`JSON.stringify` throws (circular reference). -/
inductive JSVal
  | str (s : String)
  | num (n : Int)
  | boolean (b : Bool)
  | nullVal
  | undef
  | obj (fields : List (String × JSVal))
  | circular

/-- Mirrors `typeof param === 'object'` (true for `null` as well). -/
def JSVal.isObjectTypeof : JSVal → Bool
  | .nullVal => true
  | .obj _ => true
  | .circular => true
  | _ => false

/-- Mirrors `param !== null` (negated: true exactly on the null value). -/
def JSVal.isNull : JSVal → Bool
  | .nullVal => true
  | _ => false

/-- Mirrors `String(param)`. -/
def JSVal.toJSString : JSVal → String
  | .str s => s
  | .num n => toString n
  | .boolean b => cond b "true" "false"
  | .nullVal => "null"
  | .undef => "undefined"
  | .obj _ => "[object Object]"
  | .circular => "[object Object]"

/-- Minimal JSON string escaping used by the abstract `JSON.stringify`. -/
def jsonEscapeChar (c : Char) : String :=
  if c = '\"' then "\\\""
  else if c = '\\' then "\\\\"
  else if c = '\n' then "\\n"
  else String.singleton c

/-- Escape a string for inclusion in a JSON literal. -/
def jsonEscape (s : String) : String :=
  String.join (s.toList.map jsonEscapeChar)

mutual

/-- Platform `JSON.stringify` on a single value; `none` means the call
throws (circular structure).  A top-level `undefined` never reaches this
function from `formatParams` because its typeof is not `'object'`. -/
def jsonStringify : JSVal → Option String
  | .str s => some ("\"" ++ jsonEscape s ++ "\"")
  | .num n => some (toString n)
  | .boolean b => some (cond b "true" "false")
  | .nullVal => some "null"
  | .undef => none
  | .circular => none
  | .obj fields => do
      let parts ← jsonStringifyFields fields
      some ("\x7b" ++ String.intercalate "," parts ++ "\x7d")

/-- Serialize the fields of a JS object; fields whose value is `undefined`
are omitted, as `JSON.stringify` does. -/
def jsonStringifyFields : List (String × JSVal) → Option (List String)
  | [] => some []
  | (k, v) :: rest =>
    match v with
    | .undef => jsonStringifyFields rest
    | _ => do
        let vs ← jsonStringify v
        let restParts ← jsonStringifyFields rest
        some (("\"" ++ jsonEscape k ++ "\":" ++ vs) :: restParts)

end

namespace Logger

/-- The body of the `params.map(...)` callback in `formatParams`: JSON for
non-null objects, `String(param)` otherwise; `none` means the callback
threw. -/
def formatOne (p : JSVal) : Option String :=
  if p.isObjectTypeof && !p.isNull then jsonStringify p
  else some p.toJSString

/-- The `params.map(...)` call of `formatParams` run left to right; the
first throwing callback aborts the whole map (`none`), as a JS exception
escaping `Array.prototype.map` does. -/
def formatAll : List JSVal → Option (List String)
  | [] => some []
  | p :: rest => do
      let s ← formatOne p
      let restS ← formatAll rest
      pure (s :: restS)

/-- Mirrors `formatParams`: empty argument list gives `''`; otherwise map
each argument and join with a single space (`.join(' ')`); if the mapping
throws, the catch arm returns the sentinel string. -/
def formatParams (params : List JSVal) : String :=
  if params.length = 0 then ""
  else
    match formatAll params with
    | some formattedParams => String.intercalate " " formattedParams
    | none => "[Error formatting parameters]"

/-- Mirrors the public `log(message, ...optionalParams)`: prefix the
bracketed tag, format the params, and queue the entry. -/
def log (s : State) (message : String) (optionalParams : List JSVal) (now : Nat) : State :=
  queueLog s LogType.log ("[LOG] " ++ message) (formatParams optionalParams) now

/-- Mirrors the public `error(message, ...optionalParams)`. -/
def error (s : State) (message : String) (optionalParams : List JSVal) (now : Nat) : State :=
  queueLog s LogType.error ("[ERROR] " ++ message) (formatParams optionalParams) now

/-- Mirrors the public `warn(message, ...optionalParams)`. -/
def warn (s : State) (message : String) (optionalParams : List JSVal) (now : Nat) : State :=
  queueLog s LogType.warn ("[WARN] " ++ message) (formatParams optionalParams) now

/-- Outcomes of the awaited external calls made inside the inner `try` of
`init`, in source order: `setCrashlyticsCollectionEnabled`, the
`getItem('userID')` read (its value is the returned string-or-null),
`setUserId`, and the three `setAttribute` calls.  `false` / `Except.error`
means the call throws. -/
structure InitCalls where
  enableOk : Bool
  getUserIdResult : Except Unit (Option String)
  setUserIdOk : Bool
  setEnvOk : Bool
  setPlatformOk : Bool
  setVersionOk : Bool
  queueReadOk : Bool
deriving Repr

/-- Helper turning the success flag of an awaited void call into `Except`. -/
def check (b : Bool) : Except Unit Unit :=
  if b then Except.ok () else Except.error ()

/-- The inner `try` block of `init`: the sink setup calls in source order,
then `restoreQueue`, then `startFlushTimer` (returned as the Bool of the
pair).  The first throwing call aborts the rest of the block. -/
def initInner (s : State) (c : InitCalls) : Except Unit (State × Bool) := do
  let _ ← check c.enableOk
  let _userId ← c.getUserIdResult
  let _ ← check c.setUserIdOk
  let _ ← check c.setEnvOk
  let _ ← check c.setPlatformOk
  let _ ← check c.setVersionOk
  let s1 := restoreQueue s (if c.queueReadOk then Except.ok s.store else Except.error ())
  pure (s1, true)

/-- Mirrors `init`: run the inner block; its catch arm only logs, so a
failure yields the unchanged state with no timer started.  The outer catch
is unreachable (nothing after the inner `try` can throw), so `init` never
propagates an exception. -/
def init (s : State) (c : InitCalls) : State × Bool :=
  match initInner s c with
  | .ok r => r
  | .error _ => (s, false)

/-- States reachable from a fresh install (empty queue and set, queue key
absent) by the operations the claims quantify over: `queueLog` (any kind),
`flushLogs` (any failure behaviour), and `restoreQueue` reading the
current store slot (successfully or with a throwing read). -/
inductive Reachable : State → Prop
  | initial : Reachable (fresh none)
  | record (s : State) (ty : LogType) (m p : String) (t : Nat) :
      Reachable s → Reachable (queueLog s ty m p t)
  | flush (s : State) (f : Option Nat) :
      Reachable s → Reachable (flushLogs s f).1
  | restore (s : State) :
      Reachable s → Reachable (restoreQueue s (Except.ok s.store))
  | restoreReadFail (s : State) :
      Reachable s → Reachable (restoreQueue s (Except.error ()))

/-- N-fold repetition of `record(Error, m, p)` (one `queueLog` call per
timestamp in `ts`), used to state the idempotent-dedupe claim. -/
def recordRepeated (s : State) (m p : String) (ts : List Nat) : State :=
  ts.foldl (fun s' t => queueLog s' LogType.error m p t) s

/-- Spec-side dedupe set: the set of `errorHash` values over the queued
error entries, the comprehension of the invariant in the spec. -/
def errorFingerprints (q : List LogEntry) : Finset String :=
  (q.filterMap fun e => if e.type = LogType.error then e.hash else none).toFinset

/-- Spec-side description of the delivery batch of a flush: the non-error
entries first, each as one log line, in queue order; then the error
entries, each as a log line immediately followed by a `recordError` whose
description is the entry's message, a space, and its params, in queue
order. -/
def specDeliveries (q : List LogEntry) : List Delivery :=
  ((q.filter fun e => ¬ e.type = LogType.error).map
      fun e => Delivery.logLine (formatLine e)) ++
  ((q.filter fun e => e.type = LogType.error).flatMap
      fun e =>
        [Delivery.logLine ("[ERROR] " ++ e.message ++ " " ++ e.params),
         Delivery.recordError (errorDescription e)])

/-- Spec-side formatting of one variadic argument, following the spec's
case split by the kind of value rather than the code's `typeof` test:
structured non-null arguments get their JSON serialization, every other
argument its plain string conversion. -/
def specFormatArg : JSVal → Option String
  | .obj fields => jsonStringify (JSVal.obj fields)
  | .circular => jsonStringify JSVal.circular
  | other => some other.toJSString

/-- Spec-side formatting of the whole argument list: `none` as soon as any
argument fails to format. -/
def specFormatAll : List JSVal → Option (List String)
  | [] => some []
  | p :: rest => do
      let s ← specFormatArg p
      let restS ← specFormatAll rest
      pure (s :: restS)

/-- Spec-side `formatParams`: empty list to empty string, otherwise the
per-argument results joined with a single space, with the fixed sentinel
when formatting fails. -/
def specFormatParams (ps : List JSVal) : String :=
  if ps.isEmpty then ""
  else
    match specFormatAll ps with
    | some parts => String.intercalate " " parts
    | none => "[Error formatting parameters]"

/-- Queue well-formedness: every queued error entry carries a non-empty
hash (true of every entry `queueLog` produces). -/
def EntriesWF (q : List LogEntry) : Prop :=
  ∀ e ∈ q, e.type = LogType.error → ∃ h, e.hash = some h ∧ h ≠ ""

/-- Relation between the store slot and the in-memory queue maintained by
the operations: either the slot holds the serialization of the current
queue, or nothing was ever persisted and the state is still fresh. -/
def StoreInv (s : State) : Prop :=
  s.store = some (stringifyQueue s.logQueue) ∨
    (s.store = none ∧ s.logQueue = [] ∧ s.errorHashes = ∅)

/-- The inductive invariant of the logger state machine. -/
def Inv (s : State) : Prop :=
  s.errorHashes = errHashesOf s.logQueue ∧ StoreInv s ∧ EntriesWF s.logQueue

theorem generateErrorHash_ne_empty (m p : String) : generateErrorHash m p ≠ "" := by
  intro h
  have h2 := congrArg String.length h
  simp [generateErrorHash, String.length_append] at h2
  exact absurd h2.1.2 (by decide)

theorem queueLog_error_dup (s : State) (m p : String) (t : Nat)
    (h : generateErrorHash m p ∈ s.errorHashes) :
    queueLog s LogType.error m p t = s := by
  simp [queueLog, h]

theorem queueLog_error_new (s : State) (m p : String) (t : Nat)
    (h : generateErrorHash m p ∉ s.errorHashes) :
    queueLog s LogType.error m p t =
      ⟨s.logQueue ++ [⟨LogType.error, m, p, t, some (generateErrorHash m p)⟩],
       insert (generateErrorHash m p) s.errorHashes,
       some (stringifyQueue
         (s.logQueue ++ [⟨LogType.error, m, p, t, some (generateErrorHash m p)⟩]))⟩ := by
  simp [queueLog, h, saveQueue]

theorem queueLog_nonerror (s : State) (ty : LogType) (m p : String) (t : Nat)
    (h : ¬ ty = LogType.error) :
    queueLog s ty m p t =
      ⟨s.logQueue ++ [⟨ty, m, p, t, none⟩], s.errorHashes,
       some (stringifyQueue (s.logQueue ++ [⟨ty, m, p, t, none⟩]))⟩ := by
  simp [queueLog, h, saveQueue]

theorem errHashesOf_nil : errHashesOf [] = ∅ := rfl

theorem errHashesOf_append (q1 q2 : List LogEntry) :
    errHashesOf (q1 ++ q2) = errHashesOf q1 ∪ errHashesOf q2 := by
  simp [errHashesOf]

theorem errHashesOf_error_singleton (m p : String) (t : Nat) (h : String) (hne : h ≠ "") :
    errHashesOf [⟨LogType.error, m, p, t, some h⟩] = {h} := by
  simp [errHashesOf, hne]

theorem errHashesOf_hashless_singleton (ty : LogType) (m p : String) (t : Nat) :
    errHashesOf [⟨ty, m, p, t, none⟩] = ∅ := by
  simp [errHashesOf]

theorem flushLogs_emptyQueue (s : State) (f : Option Nat) (h : s.logQueue = []) :
    flushLogs s f = (s, []) := by
  simp [flushLogs, h]

theorem flushLogs_fail_fst (s : State) (i : Nat)
    (hi : i < (flushPlan s.logQueue).length) :
    (flushLogs s (some i)).1 = s := by
  by_cases h : s.logQueue.length = 0
  · simp [flushLogs, h]
  · simp [flushLogs, h, hi]

theorem flushLogs_success (s : State) (h : ¬ s.logQueue.length = 0) :
    flushLogs s none = (⟨[], ∅, some (stringifyQueue [])⟩, flushPlan s.logQueue) := by
  simp [flushLogs, h, saveQueue]

theorem restoreQueue_readFail (s : State) : restoreQueue s (Except.error ()) = s := rfl

theorem restoreQueue_absent (s : State) : restoreQueue s (Except.ok none) = s := rfl

theorem restoreQueue_corrupt (s : State) :
    restoreQueue s (Except.ok (some Stored.corrupt)) = s := rfl

theorem restoreQueue_wellFormed (s : State) (q : List LogEntry) :
    restoreQueue s (Except.ok (some (Stored.wellFormed q))) =
      { s with logQueue := q, errorHashes := s.errorHashes ∪ errHashesOf q } := rfl

theorem deliverNormalLogs_eq_map (l : List LogEntry) :
    deliverNormalLogs l = l.map fun e => Delivery.logLine (formatLine e) := by
  induction l with
  | nil => rfl
  | cons e l ih => simp [deliverNormalLogs, ih]

theorem deliverErrorLogs_eq_flatMap (l : List LogEntry) :
    deliverErrorLogs l =
      l.flatMap fun e =>
        [Delivery.logLine ("[ERROR] " ++ e.message ++ " " ++ e.params),
         Delivery.recordError (errorDescription e)] := by
  induction l with
  | nil => rfl
  | cons e l ih => simp [deliverErrorLogs, ih]

theorem flushPlan_eq_specDeliveries (q : List LogEntry) :
    flushPlan q = specDeliveries q := by
  simp [flushPlan, specDeliveries, deliverNormalLogs_eq_map, deliverErrorLogs_eq_flatMap]

theorem flushLogs_fst_cases (s : State) (f : Option Nat) :
    (flushLogs s f).1 = s ∨ (flushLogs s f).1 = ⟨[], ∅, some (stringifyQueue [])⟩ := by
  by_cases h : s.logQueue.length = 0
  · simp [flushLogs, h]
  · cases f with
    | none => simp [flushLogs, h, saveQueue]
    | some i =>
      by_cases hi : i < (flushPlan s.logQueue).length
      · simp [flushLogs, h, hi]
      · simp [flushLogs, h, hi, saveQueue]

theorem recordRepeated_noop (s : State) (m p : String) (ts : List Nat)
    (h : generateErrorHash m p ∈ s.errorHashes) :
    recordRepeated s m p ts = s := by
  induction ts with
  | nil => rfl
  | cons t ts ih =>
    have hstep : queueLog s LogType.error m p t = s := queueLog_error_dup s m p t h
    simp only [recordRepeated, List.foldl_cons, hstep]
    exact ih

theorem errHashesOf_eq_fingerprints (q : List LogEntry) (hwf : EntriesWF q) :
    errHashesOf q = errorFingerprints q := by
  induction q with
  | nil => rfl
  | cons e q ih =>
    have hq : EntriesWF q := fun e' he' => hwf e' (List.mem_cons_of_mem _ he')
    have ihq := ih hq
    by_cases hty : e.type = LogType.error
    · obtain ⟨h, hh, hne⟩ := hwf e (List.mem_cons_self _ _) hty
      have h1 : errHashesOf (e :: q) = insert h (errHashesOf q) := by
        simp [errHashesOf, List.filterMap_cons, hh, hty, hne]
      have h2 : errorFingerprints (e :: q) = insert h (errorFingerprints q) := by
        simp [errorFingerprints, List.filterMap_cons, hh, hty]
      rw [h1, h2, ihq]
    · have h1 : errHashesOf (e :: q) = errHashesOf q := by
        cases hh : e.hash <;> simp [errHashesOf, List.filterMap_cons, hh, hty]
      have h2 : errorFingerprints (e :: q) = errorFingerprints q := by
        simp [errorFingerprints, List.filterMap_cons, hty]
      rw [h1, h2, ihq]

theorem reachable_inv (s : State) (hr : Reachable s) : Inv s := by
  induction hr with
  | initial =>
    refine ⟨rfl, Or.inr ⟨rfl, rfl, rfl⟩, ?_⟩
    intro e he
    simp [fresh] at he
  | record s ty m p t _ ih =>
    obtain ⟨hhash, hstoreInv, hwf⟩ := ih
    by_cases hty : ty = LogType.error
    · subst hty
      by_cases hmem : generateErrorHash m p ∈ s.errorHashes
      · rw [queueLog_error_dup s m p t hmem]
        exact ⟨hhash, hstoreInv, hwf⟩
      · rw [queueLog_error_new s m p t hmem]
        refine ⟨?_, Or.inl rfl, ?_⟩
        · rw [errHashesOf_append,
            errHashesOf_error_singleton _ _ _ _ (generateErrorHash_ne_empty m p), hhash,
            Finset.insert_eq, Finset.union_comm]
        · intro e he hety
          rcases List.mem_append.mp he with h1 | h2
          · exact hwf e h1 hety
          · simp at h2
            subst h2
            exact ⟨generateErrorHash m p, rfl, generateErrorHash_ne_empty m p⟩
    · rw [queueLog_nonerror s ty m p t hty]
      refine ⟨?_, Or.inl rfl, ?_⟩
      · rw [errHashesOf_append, errHashesOf_hashless_singleton, Finset.union_empty]
        exact hhash
      · intro e he hety
        rcases List.mem_append.mp he with h1 | h2
        · exact hwf e h1 hety
        · simp at h2
          subst h2
          exact absurd hety hty
  | flush s f _ ih =>
    rcases flushLogs_fst_cases s f with hcase | hcase
    · rw [hcase]; exact ih
    · rw [hcase]
      refine ⟨rfl, Or.inl rfl, ?_⟩
      intro e he
      simp at he
  | restore s _ ih =>
    obtain ⟨hhash, hstore, hwf⟩ := ih
    rcases hstore with hst | ⟨hst, hq, hh⟩
    · have hst2 : s.store = some (Stored.wellFormed s.logQueue) := hst
      have hrw := restoreQueue_wellFormed s s.logQueue
      rw [← hst2] at hrw
      rw [hrw]
      refine ⟨?_, Or.inl ?_, ?_⟩
      · show s.errorHashes ∪ errHashesOf s.logQueue = errHashesOf s.logQueue
        rw [hhash, Finset.union_self]
      · show s.store = some (stringifyQueue s.logQueue)
        exact hst
      · exact hwf
    · rw [hst, restoreQueue_absent]
      exact ⟨hhash, Or.inr ⟨hst, hq, hh⟩, hwf⟩
  | restoreReadFail s _ ih =>
    rw [restoreQueue_readFail]
    exact ih

/-- C1 counterexample: with a stored queue holding one error entry and a
`setUserId` call that throws, `init` catches the failure but returns with
the queue NOT restored (still empty, although the store holds an entry and
a successful restore would load it, as the last conjunct shows) and with
the flush timer NOT started — refuting the claim that the queue is still
restored and the timer still started when an attribute call fails. -/
theorem init_attr_failure_cex :
    (init (fresh (some (Stored.wellFormed
        [⟨LogType.error, "[ERROR] boom", "1", 0, some "[ERROR] boom:1"⟩])))
      ⟨true, Except.ok none, false, true, true, true, true⟩).1.logQueue = []
    ∧ (init (fresh (some (Stored.wellFormed
        [⟨LogType.error, "[ERROR] boom", "1", 0, some "[ERROR] boom:1"⟩])))
      ⟨true, Except.ok none, false, true, true, true, true⟩).2 = false
    ∧ (restoreQueue (fresh (some (Stored.wellFormed
        [⟨LogType.error, "[ERROR] boom", "1", 0, some "[ERROR] boom:1"⟩])))
        (Except.ok (some (Stored.wellFormed
        [⟨LogType.error, "[ERROR] boom", "1", 0, some "[ERROR] boom:1"⟩])))).logQueue
      = [⟨LogType.error, "[ERROR] boom", "1", 0, some "[ERROR] boom:1"⟩] :=
  ⟨rfl, rfl, rfl⟩

/-- C1 (amended): if any of the init-time sink calls fails (enabling
collection, reading the user id, `setUserId`, or any `setAttribute`), the
failure is caught — `init` returns normally instead of propagating — but
the queue restore and the flush-timer start are both SKIPPED: the state is
returned unchanged and no timer is started. -/
theorem init_attr_failure_caught (s : State) (c : InitCalls)
    (hfail : c.enableOk = false ∨ c.getUserIdResult = Except.error () ∨
      c.setUserIdOk = false ∨ c.setEnvOk = false ∨ c.setPlatformOk = false ∨
      c.setVersionOk = false) :
    init s c = (s, false) := by
  obtain ⟨e1, ur, su, se, sp, sv, qr⟩ := c
  cases e1 <;> cases su <;> cases se <;> cases sp <;> cases sv <;> cases ur <;>
    simp_all [init, initInner, check, Bind.bind, Except.bind, Except.instMonad]

theorem init_attr_failure_caught_witness :
    init (fresh none) ⟨true, Except.ok none, false, true, true, true, true⟩
      = (fresh none, false) :=
  init_attr_failure_caught _ _ (Or.inr (Or.inr (Or.inl rfl)))

/-- C2: for a fingerprint not yet in the dedupe set, `record(Error, m, p)`
computes the fingerprint as exactly `m ++ ":" ++ p`, appends one entry
carrying it, adds it to the dedupe set and persists the grown queue; every
further identical call (any number, any timestamps, no intervening flush)
leaves the whole state — queue, set and store — unchanged, so exactly one
entry for `(m, p)` is queued. -/
theorem record_error_dedupe (s : State) (m p : String) (t : Nat) (ts : List Nat)
    (hnew : generateErrorHash m p ∉ s.errorHashes) :
    generateErrorHash m p = m ++ ":" ++ p ∧
    (queueLog s LogType.error m p t).logQueue
      = s.logQueue ++ [⟨LogType.error, m, p, t, some (generateErrorHash m p)⟩] ∧
    (queueLog s LogType.error m p t).errorHashes
      = insert (generateErrorHash m p) s.errorHashes ∧
    (queueLog s LogType.error m p t).store
      = some (stringifyQueue
          (s.logQueue ++ [⟨LogType.error, m, p, t, some (generateErrorHash m p)⟩])) ∧
    recordRepeated (queueLog s LogType.error m p t) m p ts
      = queueLog s LogType.error m p t := by
  have h1 := queueLog_error_new s m p t hnew
  refine ⟨rfl, ?_, ?_, ?_, ?_⟩
  · rw [h1]
  · rw [h1]
  · rw [h1]
  · apply recordRepeated_noop
    rw [h1]
    exact Finset.mem_insert_self _ _

theorem record_error_dedupe_witness :
    generateErrorHash "[ERROR] a" "1" ∉ (fresh none).errorHashes ∧
    recordRepeated (queueLog (fresh none) LogType.error "[ERROR] a" "1" 0)
        "[ERROR] a" "1" [3, 9]
      = queueLog (fresh none) LogType.error "[ERROR] a" "1" 0 :=
  ⟨by decide,
   (record_error_dedupe (fresh none) "[ERROR] a" "1" 0 [3, 9] (by decide)).2.2.2.2⟩

/-- C3: in every state reachable by restore-from-storage, record of any
kind and flush (successful or failed), the dedupe set equals the set of
`errorHash` values of the queued error entries. -/
theorem dedupe_set_invariant (s : State) (hr : Reachable s) :
    s.errorHashes = errorFingerprints s.logQueue := by
  obtain ⟨hhash, _, hwf⟩ := reachable_inv s hr
  rw [hhash, errHashesOf_eq_fingerprints s.logQueue hwf]

theorem dedupe_set_invariant_witness :
    (queueLog (fresh none) LogType.error "[ERROR] a" "1" 0).errorHashes
      = errorFingerprints (queueLog (fresh none) LogType.error "[ERROR] a" "1" 0).logQueue :=
  dedupe_set_invariant _ (Reachable.record _ _ _ _ _ Reachable.initial)

/-- C4: saving a (non-empty) reachable queue with `saveQueue` and then
restoring it into a fresh logger with `restoreQueue` reproduces an equal
queue and an equal dedupe set, the latter rebuilt only from restored error
entries carrying a hash. -/
theorem persistence_roundtrip (s : State) (hr : Reachable s) (hne : s.logQueue ≠ []) :
    (restoreQueue (fresh (saveQueue s).store) (Except.ok (saveQueue s).store)).logQueue
        = s.logQueue ∧
    (restoreQueue (fresh (saveQueue s).store) (Except.ok (saveQueue s).store)).errorHashes
        = s.errorHashes := by
  obtain ⟨hhash, _, _⟩ := reachable_inv s hr
  constructor
  · rfl
  · show (∅ ∪ errHashesOf s.logQueue : Finset String) = s.errorHashes
    rw [Finset.empty_union, hhash]

theorem persistence_roundtrip_witness :
    (queueLog (fresh none) LogType.error "[ERROR] b" "2" 7).logQueue ≠ [] ∧
    (restoreQueue
        (fresh (saveQueue (queueLog (fresh none) LogType.error "[ERROR] b" "2" 7)).store)
        (Except.ok (saveQueue (queueLog (fresh none) LogType.error "[ERROR] b" "2" 7)).store)).errorHashes
      = (queueLog (fresh none) LogType.error "[ERROR] b" "2" 7).errorHashes :=
  ⟨by decide,
   (persistence_roundtrip _ (Reachable.record _ _ _ _ _ Reachable.initial) (by decide)).2⟩

/-- C5: a (successful) flush delivers the non-error entries first, in
queue order, one log line each, then the error entries, in queue order,
each as one log line immediately followed by one `recordError` whose
description is the entry's message, a space, and its params. -/
theorem flush_delivery_order (s : State) :
    (flushLogs s none).2 = specDeliveries s.logQueue := by
  by_cases h : s.logQueue.length = 0
  · have hq : s.logQueue = [] := List.length_eq_zero.mp h
    rw [flushLogs_emptyQueue s none hq, hq]
    rfl
  · rw [flushLogs_success s h]
    exact flushPlan_eq_specDeliveries s.logQueue

/-- C6: if the `i`-th sink call of a flush throws, the flush catches it
and the state — queue, dedupe set AND the persisted copy in the store — is
exactly the state from before the flush. -/
theorem flush_failure_preserves_state (s : State) (i : Nat)
    (hi : i < (flushPlan s.logQueue).length) :
    (flushLogs s (some i)).1 = s :=
  flushLogs_fail_fst s i hi

theorem flush_failure_preserves_state_witness :
    0 < (flushPlan (queueLog (fresh none) LogType.error "[ERROR] a" "1" 0).logQueue).length ∧
    (flushLogs (queueLog (fresh none) LogType.error "[ERROR] a" "1" 0) (some 0)).1
      = queueLog (fresh none) LogType.error "[ERROR] a" "1" 0 :=
  ⟨by decide, flush_failure_preserves_state _ 0 (by decide)⟩

/-- C7: a flush in which every delivery succeeds leaves the queue empty,
the dedupe set empty, and the store slot holding the serialization of the
empty queue; a flush of an already-empty queue performs no deliveries
(empty trace) and leaves the whole state, store included, untouched. -/
theorem flush_success_clears (s : State) (f : Option Nat) :
    (¬ s.logQueue = [] →
      flushLogs s none = (⟨[], ∅, some (stringifyQueue [])⟩, flushPlan s.logQueue)) ∧
    (s.logQueue = [] → flushLogs s f = (s, [])) := by
  constructor
  · intro h
    exact flushLogs_success s (fun hlen => h (List.length_eq_zero.mp hlen))
  · intro h
    exact flushLogs_emptyQueue s f h

theorem flush_success_clears_witness :
    flushLogs (queueLog (fresh none) LogType.error "[ERROR] a" "1" 0) none
      = (⟨[], ∅, some (stringifyQueue [])⟩,
         flushPlan (queueLog (fresh none) LogType.error "[ERROR] a" "1" 0).logQueue) ∧
    flushLogs (fresh none) (some 0) = (fresh none, []) :=
  ⟨(flush_success_clears (queueLog (fresh none) LogType.error "[ERROR] a" "1" 0) none).1
     (by decide),
   (flush_success_clears (fresh none) (some 0)).2 rfl⟩

/-- C8: if the store read throws, or the stored string does not parse,
`restoreQueue` catches the failure and returns the state unchanged — in
particular a previously empty queue and dedupe set stay empty, never
partially populated. -/
theorem restore_failure_leaves_queue (s : State) (read : Except Unit (Option Stored))
    (hfail : read = Except.error () ∨ read = Except.ok (some Stored.corrupt)) :
    restoreQueue s read = s := by
  rcases hfail with h | h
  · rw [h]
    exact restoreQueue_readFail s
  · rw [h]
    exact restoreQueue_corrupt s

theorem restore_failure_leaves_queue_witness :
    restoreQueue (fresh none) (Except.ok (some Stored.corrupt)) = fresh none :=
  restore_failure_leaves_queue _ _ (Or.inr rfl)

theorem formatOne_eq_specFormatArg (p : JSVal) : formatOne p = specFormatArg p := by
  cases p <;> rfl

theorem formatAll_eq_specFormatAll (ps : List JSVal) : formatAll ps = specFormatAll ps := by
  induction ps with
  | nil => rfl
  | cons p ps ih => simp [formatAll, specFormatAll, formatOne_eq_specFormatArg, ih]

theorem formatAll_none_of_mem (ps : List JSVal) (q : JSVal) (hq : q ∈ ps)
    (hn : formatOne q = none) : formatAll ps = none := by
  induction ps with
  | nil => cases hq
  | cons p ps ih =>
    rcases List.mem_cons.mp hq with rfl | hq2
    · simp [formatAll, hn]
    · cases hfo : formatOne p with
      | none => simp [formatAll, hfo]
      | some s => simp [formatAll, hfo, ih hq2]

theorem formatParams_eq_specFormatParams (ps : List JSVal) :
    formatParams ps = specFormatParams ps := by
  cases ps with
  | nil => rfl
  | cons p ps => simp [formatParams, specFormatParams, formatAll_eq_specFormatAll]

/-- C9: parameter formatting maps the empty argument list to the empty
string; otherwise each argument becomes its JSON serialization when it is
a non-null object and its plain string conversion otherwise, joined with a
single space; and when formatting an argument throws, the result is the
fixed sentinel string — `formatParams` itself always returns normally. -/
theorem format_params_spec (ps : List JSVal) :
    formatParams [] = "" ∧
    formatParams ps = specFormatParams ps ∧
    (∀ q ∈ ps, formatOne q = none →
      formatParams ps = "[Error formatting parameters]") := by
  refine ⟨rfl, formatParams_eq_specFormatParams ps, ?_⟩
  intro q hq hn
  have hall := formatAll_none_of_mem ps q hq hn
  have hlen : ¬ ps.length = 0 := by
    intro h0
    rw [List.length_eq_zero.mp h0] at hq
    cases hq
  simp [formatParams, hlen, hall]

theorem format_params_spec_witness :
    formatParams [] = "" ∧
    formatParams [JSVal.str "x", JSVal.circular] = "[Error formatting parameters]" :=
  ⟨(format_params_spec []).1,
   (format_params_spec [JSVal.str "x", JSVal.circular]).2.2 JSVal.circular
     (List.mem_cons_of_mem _ (List.mem_cons_self _ _)) rfl⟩

/-- C10: the log line delivered for a flushed entry is the bracketed
uppercase kind tag, a space, the stored message, a space, and the stored
params — and because the public `log`/`warn`/`error` operations already
prefix the same bracketed tag onto the message before queueing, every
delivered log line carries the kind tag twice. -/
theorem flushed_line_double_tag (s : State) (m : String) (ps : List JSVal) (t : Nat)
    (hnew : generateErrorHash ("[ERROR] " ++ m) (formatParams ps) ∉ s.errorHashes) :
    (∀ e : LogEntry,
      formatLine e = "[" ++ e.type.toUpperCase ++ "] " ++ e.message ++ " " ++ e.params) ∧
    (log s m ps t).logQueue
      = s.logQueue ++ [⟨LogType.log, "[LOG] " ++ m, formatParams ps, t, none⟩] ∧
    formatLine ⟨LogType.log, "[LOG] " ++ m, formatParams ps, t, none⟩
      = "[LOG] [LOG] " ++ m ++ " " ++ formatParams ps ∧
    (warn s m ps t).logQueue
      = s.logQueue ++ [⟨LogType.warn, "[WARN] " ++ m, formatParams ps, t, none⟩] ∧
    formatLine ⟨LogType.warn, "[WARN] " ++ m, formatParams ps, t, none⟩
      = "[WARN] [WARN] " ++ m ++ " " ++ formatParams ps ∧
    (error s m ps t).logQueue
      = s.logQueue ++ [⟨LogType.error, "[ERROR] " ++ m, formatParams ps, t,
          some (generateErrorHash ("[ERROR] " ++ m) (formatParams ps))⟩] ∧
    flushPlan [⟨LogType.error, "[ERROR] " ++ m, formatParams ps, t,
        some (generateErrorHash ("[ERROR] " ++ m) (formatParams ps))⟩]
      = [Delivery.logLine ("[ERROR] [ERROR] " ++ m ++ " " ++ formatParams ps),
         Delivery.recordError ("[ERROR] " ++ m ++ " " ++ formatParams ps)] := by
  refine ⟨fun e => rfl, ?_, ?_, ?_, ?_, ?_, ?_⟩
  · show (queueLog s LogType.log ("[LOG] " ++ m) (formatParams ps) t).logQueue = _
    rw [queueLog_nonerror s LogType.log ("[LOG] " ++ m) (formatParams ps) t (by decide)]
  · show "[LOG] " ++ ("[LOG] " ++ m) ++ " " ++ formatParams ps = _
    rw [← String.append_assoc]
    rfl
  · show (queueLog s LogType.warn ("[WARN] " ++ m) (formatParams ps) t).logQueue = _
    rw [queueLog_nonerror s LogType.warn ("[WARN] " ++ m) (formatParams ps) t (by decide)]
  · show "[WARN] " ++ ("[WARN] " ++ m) ++ " " ++ formatParams ps = _
    rw [← String.append_assoc]
    rfl
  · show (queueLog s LogType.error ("[ERROR] " ++ m) (formatParams ps) t).logQueue = _
    rw [queueLog_error_new s ("[ERROR] " ++ m) (formatParams ps) t hnew]
  · show [Delivery.logLine ("[ERROR] " ++ ("[ERROR] " ++ m) ++ " " ++ formatParams ps),
        Delivery.recordError (("[ERROR] " ++ m) ++ " " ++ formatParams ps)] = _
    rw [← String.append_assoc]
    rfl

theorem flushed_line_double_tag_witness :
    generateErrorHash ("[ERROR] " ++ "boom") (formatParams []) ∉ (fresh none).errorHashes ∧
    flushPlan [⟨LogType.error, "[ERROR] " ++ "boom", formatParams [], 0,
        some (generateErrorHash ("[ERROR] " ++ "boom") (formatParams []))⟩]
      = [Delivery.logLine ("[ERROR] [ERROR] " ++ "boom" ++ " " ++ formatParams []),
         Delivery.recordError ("[ERROR] " ++ "boom" ++ " " ++ formatParams [])] :=
  ⟨by decide,
   (flushed_line_double_tag (fresh none) "boom" [] 0 (by decide)).2.2.2.2.2.2⟩

end Logger

end LoggingUtility
